import Mathlib

/-!
# Verification of the ScintillaV2 idea-lifecycle pipeline

Shallow embedding of the idea pipeline of the `scintilla_backend` package:
the processor agent (`agents/processor_agent.py`), the reviewer agent
(`agents/reviewer_agent.py`), the batch runner (`process_ideas.py`) and the
SQLite store layer (`db/db_manager.py`).  Python dictionaries parsed from the
model's JSON output are embedded as an inductive `Jval` type; the three
stores are embedded as lists held in a `World` record, with the SQL
statements of `db_manager.py` translated to list operations.  External
fallible effects (the Ollama model call, the Notion publish call, SQLite
errors) are passed in as explicit parameters so that each theorem quantifies
over the environment's behaviour.
-/

set_option maxRecDepth 100000

namespace Scintilla

/-- A JSON runtime value, as produced by `json.loads` in `_call_ollama`.
Python dicts are association lists (keys unique after JSON parsing). -/
inductive Jval where
  | str (s : String)
  | num (n : Int)
  | boolV (b : Bool)
  | null
  | arr (elems : List Jval)
  | obj (fields : List (String × Jval))

/-- `d.get(k, dflt)` on a Python dict embedded as an association list. -/
def dictGet (d : List (String × Jval)) (k : String) (dflt : Jval) : Jval :=
  match d.find? (fun p => p.1 = k) with
  | some p => p.2
  | none => dflt

/-- Python `len` on the sized values the processor manipulates (strings,
lists, dicts).  The claims only ever exercise it on strings and lists. -/
def pyLen : Jval → Nat
  | .str s => s.length
  | .arr l => l.length
  | .obj f => f.length
  | _ => 0

/-- `isinstance(v, dict)`. -/
def isDict : Jval → Bool
  | .obj _ => true
  | _ => false

/-- `isinstance(v, str)`. -/
def isStr : Jval → Bool
  | .str _ => true
  | _ => false

/-- Python whitespace, as stripped by `str.strip()`. -/
def isSpaceChar (c : Char) : Bool :=
  c = ' ' || c = '\t' || c = '\n' || c = '\r' || c = '\x0b' || c = '\x0c'

/-- Python `s.strip()`: remove leading and trailing whitespace. -/
def pyStrip (s : String) : String :=
  String.mk (((s.data.dropWhile isSpaceChar).reverse.dropWhile isSpaceChar).reverse)

/-- Python `s.lower()` (ASCII lowering, as the keyword search needs). -/
def pyLower (s : String) : String :=
  String.mk (s.data.map Char.toLower)

/-- Substring occurrence on character lists (helper for Python `in`). -/
def listContains (pat : List Char) : List Char → Bool
  | [] => pat.isEmpty
  | c :: rest => pat.isPrefixOf (c :: rest) || listContains pat rest

/-- Python `pat in s` on strings. -/
def pyContains (s pat : String) : Bool := listContains pat.data s.data

/-- Python `s.split(sep)` for a single-character separator, on character
lists (`"".split(sep) == [""]`). -/
def pySplit (sep : Char) : List Char → List (List Char)
  | [] => [[]]
  | c :: rest =>
    match pySplit sep rest with
    | h :: t => if c = sep then [] :: h :: t else (c :: h) :: t
    | [] => [[c]]

/-- Python `s.split(sep)` on strings. -/
def pySplitStr (s : String) (sep : Char) : List String :=
  (pySplit sep s.data).map String.mk

/-- Python truthiness of a JSON-derived value (`if v:`). -/
def jtruthy : Jval → Bool
  | .str s => s ≠ ""
  | .num n => n ≠ 0
  | .boolV b => b
  | .null => false
  | .arr l => !l.isEmpty
  | .obj f => !f.isEmpty

/-- The `min_content_length_map` literal of `_validate_ollama_response`. -/
def min_content_length_map : List (String × Nat) :=
  [("research", 1500), ("build", 500), ("article", 1000)]

/-- `min_content_length_map.get(project_type, 500)`. -/
def minContentLength (project_type : String) : Nat :=
  match min_content_length_map.find? (fun p => p.1 = project_type) with
  | some p => p.2
  | none => 500

/-- The per-entry check of the `next_actions` loop in
`_validate_ollama_response`: the entry must be a dict, carry a `name` key,
and `len(action.get('name', ''))` must be at least 20. -/
def validActionEntry (a : Jval) : Bool :=
  match a with
  | .obj fields =>
    match fields.find? (fun p => p.1 = "name") with
    | some p => 20 ≤ pyLen p.2
    | none => false
  | _ => false

/-- The per-entry check of the `next_reading` loop in
`_validate_ollama_response`: the entry must be a string and
`len(item.strip())` must be at least 20. -/
def validReadingEntry (a : Jval) : Bool :=
  match a with
  | .str s => 20 ≤ (pyStrip s).length
  | _ => false

/-- The `next_actions` block: `response.get('next_actions', [])` must be a
list, non-empty, and every entry must pass `validActionEntry`. -/
def checkActions (response : List (String × Jval)) : Bool :=
  match dictGet response "next_actions" (.arr []) with
  | .arr l => !l.isEmpty && l.all validActionEntry
  | _ => false

/-- The `next_reading` block: `response.get('next_reading', [])` must be a
list, non-empty, and every entry must pass `validReadingEntry`. -/
def checkReading (response : List (String × Jval)) : Bool :=
  match dictGet response "next_reading" (.arr []) with
  | .arr l => !l.isEmpty && l.all validReadingEntry
  | _ => false

/-- `ProcessorAgent._validate_ollama_response`: minimum content length first,
then `next_actions` for build/research, then `next_reading` for
article/research. -/
def validate_ollama_response (response : List (String × Jval))
    (project_type : String) : Bool :=
  if pyLen (dictGet response "content" (.str "")) < minContentLength project_type then
    false
  else if (project_type == "build" || project_type == "research")
      && !(checkActions response) then
    false
  else if (project_type == "article" || project_type == "research")
      && !(checkReading response) then
    false
  else
    true

/-- The keyword classification at the top of `process_idea`: default
`research`; `build` if "build" occurs in the lowercased text; else `article`
if "article" or "write" occurs. -/
def classifyProjectType (idea_text : String) : String :=
  let lower := pyLower idea_text
  if pyContains lower "build" then "build"
  else if pyContains lower "article" || pyContains lower "write" then "article"
  else "research"

/-- `prompts_for_type["full_prompt"].format(idea_text=..., context_urls=...)`,
with Python `str.format` substitution abstracted to placeholder replacement
(the pipeline never inspects the rendered prompt). -/
def renderPrompt (tpl idea_text context_urls : String) : String :=
  (tpl.replace "{idea_text}" idea_text).replace "{context_urls}" context_urls

/-! ## The three stores

A row of the `ideas` table (scratchpad).  The opaque `uuid4` identifiers and
ISO timestamps of the source are modelled as naturals drawn from a
strictly-increasing counter, which is exactly how the pipeline uses them:
identifiers are only compared for equality (`WHERE id = ?`) and never
collide, and rows are listed in timestamp order (`ORDER BY timestamp ASC`),
which coincides with insertion order. -/
structure Idea where
  id : Nat
  idea_text : String
  context_urls : String
  status : String
  timestamp : Nat
deriving Repr, DecidableEq

/-- A TEXT cell of the `content` table that was populated with a serialized
list.  `add_content` always writes `json.dumps(...)`, which produces
well-formed JSON that `json.loads` parses back to an equal value; this is
the `jsonV` constructor.  The `rawS` constructor models legacy cells whose
text is not valid JSON, for which `json.loads` raises and the readers fall
back to newline/comma splitting. -/
inductive DbCell where
  | jsonV (v : Jval)
  | rawS (s : String)

/-- A row of the `content` table.  `title` and `content` keep the runtime
values extracted from the model response (bound directly into the INSERT). -/
structure ContentItem where
  id : Nat
  idea_id : Nat
  project_type : String
  title : Jval
  content : Jval
  category_tags : DbCell
  next_actions : DbCell
  next_reading : DbCell
  status : String
  timestamp : Nat

/-- The durable state: scratchpad ideas, generated content and the
processor log, in creation order, plus the fresh-identifier counter. -/
structure World where
  ideas : List Idea
  contents : List ContentItem
  logs : List (Nat × String)
  nextId : Nat

/-- `DatabaseManager.add_idea`.  `dbOk` models whether the INSERT commits or
raises `sqlite3.Error` (in which case the method returns `None` and the
table is unchanged).  New ideas are created with status `"in queue"`. -/
def add_idea (w : World) (dbOk : Bool) (idea_text context_urls : String) :
    World × Option Nat :=
  if dbOk then
    ({ w with
        ideas := w.ideas ++ [⟨w.nextId, idea_text, context_urls, "in queue", w.nextId⟩],
        nextId := w.nextId + 1 },
      some w.nextId)
  else (w, none)

/-- `DatabaseManager.add_content`: serializes the three list arguments with
`json.dumps` (the `next_actions`/`next_reading` arguments are replaced by
`[]` when falsy) and inserts a row with status `"awaiting review"`. -/
def add_content (w : World) (dbOk : Bool) (idea_id : Nat) (project_type : String)
    (title content category_tags next_actions next_reading : Jval) :
    World × Option Nat :=
  if dbOk then
    ({ w with
        contents := w.contents ++
          [⟨w.nextId, idea_id, project_type, title, content,
            .jsonV category_tags,
            .jsonV (if jtruthy next_actions then next_actions else .arr []),
            .jsonV (if jtruthy next_reading then next_reading else .arr []),
            "awaiting review", w.nextId⟩],
        nextId := w.nextId + 1 },
      some w.nextId)
  else (w, none)

/-- `DatabaseManager.get_all_ideas`: `SELECT * FROM ideas ORDER BY timestamp`. -/
def get_all_ideas (w : World) : List Idea := w.ideas

/-- `DatabaseManager.get_pending_ideas`:
`SELECT * FROM ideas WHERE status = 'in queue' ORDER BY timestamp`. -/
def get_pending_ideas (w : World) : List Idea :=
  w.ideas.filter (fun i => i.status = "in queue")

/-- `DatabaseManager.get_idea`: `SELECT * FROM ideas WHERE id = ?`. -/
def get_idea (w : World) (idea_id : Nat) : Option Idea :=
  w.ideas.find? (fun i => i.id = idea_id)

/-- `DatabaseManager.update_idea_status`: `UPDATE ideas SET status = ?
WHERE id = ?`; returns `rowcount > 0`. -/
def update_idea_status (w : World) (idea_id : Nat) (status : String) :
    World × Bool :=
  ({ w with
      ideas := w.ideas.map (fun i =>
        if i.id = idea_id then { i with status := status } else i) },
    w.ideas.any (fun i => i.id = idea_id))

/-- `DatabaseManager.delete_content`: `DELETE FROM content WHERE id = ?`;
returns `rowcount > 0`.  `dbOk` models `sqlite3.Error` (return `False`). -/
def delete_content (w : World) (dbOk : Bool) (content_id : Nat) :
    World × Bool :=
  if dbOk then
    ({ w with contents := w.contents.filter (fun c => c.id ≠ content_id) },
      w.contents.any (fun c => c.id = content_id))
  else (w, false)

/-- The `category_tags` deserialization of `get_content_by_id`:
`json.loads` on a well-formed cell, else `split(',')` (or `[]` if empty). -/
def loadTagsCell : DbCell → Jval
  | .jsonV v => v
  | .rawS s => if s ≠ "" then .arr ((pySplitStr s ',').map Jval.str) else .arr []

/-- The `next_actions` deserialization of `get_content_by_id`: `json.loads`
on a well-formed cell; on the legacy fallback every newline-separated part
is wrapped as `{'name': part.strip(), 'priority': 'low'}`. -/
def loadActionsCell : DbCell → Jval
  | .jsonV v => v
  | .rawS s =>
    .arr ((pySplitStr s '\n').map (fun part =>
      .obj [("name", .str (pyStrip part)), ("priority", .str "low")]))

/-- The `next_reading` deserialization of `get_content_by_id`: `json.loads`
on a well-formed cell, else `split('\n')` (or `[]` if empty). -/
def loadReadingCell : DbCell → Jval
  | .jsonV v => v
  | .rawS s => if s ≠ "" then .arr ((pySplitStr s '\n').map Jval.str) else .arr []

/-- A `content` row as returned by `get_content_by_id`, with the three TEXT
cells deserialized back to runtime values. -/
structure ContentView where
  id : Nat
  idea_id : Nat
  project_type : String
  title : Jval
  content : Jval
  category_tags : Jval
  next_actions : Jval
  next_reading : Jval
  status : String
  timestamp : Nat

/-- `DatabaseManager.get_content_by_id`: `SELECT * FROM content WHERE id = ?`
followed by the three try/except deserializations. -/
def get_content_by_id (w : World) (content_id : Nat) : Option ContentView :=
  (w.contents.find? (fun c => c.id = content_id)).map (fun c =>
    ⟨c.id, c.idea_id, c.project_type, c.title, c.content,
      loadTagsCell c.category_tags, loadActionsCell c.next_actions,
      loadReadingCell c.next_reading, c.status, c.timestamp⟩)

/-- Modelled from the spec: the Log Store operation
`append(idea_id, message) -> void` (spec §6).  The callers in
`processor_agent.py` invoke `log_manager.add_log_entry(idea_id, message)`,
but the method itself is absent from `db_manager.py` in the sources; per the
spec the log is an append-only per-idea activity trail. -/
def add_log_entry (w : World) (idea_id : Nat) (message : String) : World :=
  { w with logs := w.logs ++ [(idea_id, message)] }

/-! ## The processor agent -/

mutual

/-- Python `str()` of a JSON-derived value (repr-style, as printed for dict
entries by the `next_reading` conversion in `process_idea`). -/
def pyRepr : Jval → String
  | .str s => "\x27" ++ s ++ "\x27"
  | .num n => toString n
  | .boolV true => "True"
  | .boolV false => "False"
  | .null => "None"
  | .arr l => "[" ++ pyReprList l ++ "]"
  | .obj f => "\x7b" ++ pyReprFields f ++ "\x7d"

/-- Comma-joined `pyRepr` of list elements. -/
def pyReprList : List Jval → String
  | [] => ""
  | [v] => pyRepr v
  | v :: rest => pyRepr v ++ ", " ++ pyReprList rest

/-- Comma-joined `pyRepr` of dict fields. -/
def pyReprFields : List (String × Jval) → String
  | [] => ""
  | [(kk, v)] => "\x27" ++ kk ++ "\x27: " ++ pyRepr v
  | (kk, v) :: rest => "\x27" ++ kk ++ "\x27: " ++ pyRepr v ++ ", " ++ pyReprFields rest

end

/-- The `next_reading` "robust conversion" of `process_idea`: if the value
is a non-empty list whose first entry is a dict, every entry is replaced by
Python `str(item)`.  (Validation has already ensured the value is a list by
the time this code runs, so only the list cases are semantically live.) -/
def normalizeReading (v : Jval) : Jval :=
  match v with
  | .arr (first :: rest) =>
    if isDict first then .arr ((first :: rest).map (fun item => .str (pyRepr item)))
    else .arr (first :: rest)
  | v => v

/-- `action.strip()` for the `next_actions` conversion.  Python raises
`AttributeError` on a non-string; the non-string case is unreachable in
`process_idea` (the conversion fires only when the first entry is a string,
while validation has required every entry to be a dict) and is given a
dummy value for totality. -/
def stripEntry : Jval → String
  | .str s => pyStrip s
  | _ => ""

/-- The `next_actions` "robust check" of `process_idea`: if the value is a
non-empty list whose first entry is a string, every entry is wrapped as
`{"name": action.strip(), "priority": "low"}`. -/
def normalizeActions (v : Jval) : Jval :=
  match v with
  | .arr (first :: rest) =>
    if isStr first then
      .arr ((first :: rest).map (fun a =>
        .obj [("name", .str (stripEntry a)), ("priority", .str "low")]))
    else .arr (first :: rest)
  | v => v

/-- The outcome of `ollama_client.generate`: a transport-level exception
(`ollama.exceptions.OllamaException`) or the raw generated text. -/
inductive ModelOutcome where
  | transportError
  | text (raw : String)

/-- `generated_text.find(c)`: first index, `-1` when absent. -/
def pyFind (s : String) (c : Char) : Int :=
  match s.data.findIdx? (fun x => x = c) with
  | some i => (i : Int)
  | none => -1

/-- `generated_text.rfind(c)`: last index, `-1` when absent. -/
def pyRfind (s : String) (c : Char) : Int :=
  match s.data.reverse.findIdx? (fun x => x = c) with
  | some i => ((s.data.length - 1 - i : Nat) : Int)
  | none => -1

/-- `ProcessorAgent._call_ollama`, with `json.loads` as an oracle
(`parseJson t = some d` when `json.loads(t)` yields the dict `d`, `none`
when it raises `json.JSONDecodeError`).  A transport error, a missing JSON
object and a parse failure all yield the empty dict.  The source computes
`end_index = rfind('}') + 1` and tests `end_index != -1`, which is always
true; that is reproduced faithfully (when no brace is present the slice is
empty and parsing it fails). -/
def call_ollama (parseJson : String → Option (List (String × Jval)))
    (outcome : ModelOutcome) : List (String × Jval) :=
  match outcome with
  | .transportError => []
  | .text raw =>
    let start := pyFind raw '\x7b'
    let stop := pyRfind raw '\x7d' + 1
    if start ≠ -1 ∧ stop ≠ -1 then
      match parseJson (String.mk ((raw.data.drop start.toNat).take
          (stop.toNat - start.toNat))) with
      | some d => d
      | none => []
    else []

/-- `ProcessorAgent.process_idea`.  `prompts` is the template table loaded
from `prompts.json` (project type ↦ `full_prompt`; a missing or falsy entry
is `find? = none`); `callModel` is `self._call_ollama` as a function of the
rendered prompt; `dbOk` models whether the content INSERT commits.  Returns
the updated stores and the Python return value (`idea_id` on success,
`None` otherwise). -/
def process_idea (prompts : List (String × String))
    (callModel : String → List (String × Jval)) (dbOk : Bool)
    (w0 : World) (idea : Idea) : World × Option Nat :=
  let idea_id := idea.id
  let w := add_log_entry w0 idea_id ("Processing idea: " ++ toString idea_id)
  let project_type := classifyProjectType idea.idea_text
  match prompts.find? (fun p => p.1 = project_type) with
  | none => ((update_idea_status w idea_id "error").1, none)
  | some tpl =>
    let ollama_response := callModel (renderPrompt tpl.2 idea.idea_text idea.context_urls)
    if ollama_response.isEmpty then
      (add_log_entry (update_idea_status w idea_id "error").1 idea_id
        "Ollama returned an empty response.", none)
    else if !validate_ollama_response ollama_response project_type then
      (add_log_entry (update_idea_status w idea_id "reprocess").1 idea_id
        "Response failed validation. Re-queuing.", none)
    else
      let title := dictGet ollama_response "title" (.str "No Title")
      let generated_content := dictGet ollama_response "content" (.str "No Content")
      let category_tags_list := dictGet ollama_response "category_tags" (.arr [])
      let next_reading_list :=
        if project_type == "article" || project_type == "research" then
          normalizeReading (dictGet ollama_response "next_reading" (.arr []))
        else .arr []
      let next_actions_list :=
        if project_type == "build" || project_type == "research" then
          normalizeActions (dictGet ollama_response "next_actions" (.arr []))
        else .arr []
      let w1 := (add_content w dbOk idea_id project_type title generated_content
        category_tags_list next_actions_list next_reading_list).1
      let w2 := (update_idea_status w1 idea_id "processed").1
      (add_log_entry w2 idea_id "Successfully processed and awaiting review.",
        some idea_id)

/-! ## The reviewer agent -/

/-- `ReviewerAgent._post_to_notion`, abstracted to its outcome per spec §6
(`publish(artifact, metadata) -> success|failure`): missing credentials
(`hasCreds = false`) return `False` immediately without a network call;
otherwise the outcome of the POST (`netOk`) is returned. -/
def post_to_notion (hasCreds netOk : Bool) : Bool :=
  if !hasCreds then false else netOk

/-- `ReviewerAgent.approve_and_post_to_notion`: fetch, publish, and only on
publish success delete the content and mark the idea `approved` (the status
update happens only after a successful delete).  `dbOk` models whether the
DELETE commits. -/
def approve_and_post_to_notion (hasCreds netOk dbOk : Bool) (w : World)
    (content_id : Nat) : World × Bool :=
  match get_content_by_id w content_id with
  | none => (w, false)
  | some content_data =>
    if post_to_notion hasCreds netOk then
      let dres := delete_content w dbOk content_id
      if dres.2 then
        ((update_idea_status dres.1 content_data.idea_id "approved").1, true)
      else (dres.1, false)
    else (w, false)

/-- `ReviewerAgent.reject_and_requeue`: fetch content, fetch the original
idea, build the corrected idea text and context URLs, insert the new idea,
and only if the insert succeeded mark the original `rejected` and delete
the content.  `insertOk` models whether the scratchpad INSERT commits,
`delOk` the content DELETE. -/
def reject_and_requeue (insertOk delOk : Bool) (w : World) (content_id : Nat)
    (correction_text correction_urls : String) : World × Bool :=
  match get_content_by_id w content_id with
  | none => (w, false)
  | some content_data =>
    match get_idea w content_data.idea_id with
    | none => (w, false)
    | some original_idea =>
      let new_idea_text :=
        original_idea.idea_text ++ "\n\n[Correction Notes]: " ++ correction_text
      let new_context_urls :=
        if original_idea.context_urls ≠ "" then
          original_idea.context_urls ++ "," ++ correction_urls
        else correction_urls
      match add_idea w insertOk new_idea_text new_context_urls with
      | (w1, some _) =>
        ((delete_content
            (update_idea_status w1 content_data.idea_id "rejected").1
            delOk content_id).1, true)
      | (w1, none) => (w1, false)

/-! ## The batch runner (`process_ideas.run_processor_batch`) -/

/-- Why a run of the batch loop came to an end. -/
inductive StopReason where
  | budget
  | emptyBatch
  | noReprocess
deriving Repr, DecidableEq

/-- Observable trace of one invocation of `run_processor_batch`: the final
stores, the number of completed rounds, the number of `time.sleep` calls,
the selected batches (as idea ids, in processing order) and why the loop
stopped. -/
structure RunResult where
  world : World
  rounds : Nat
  sleeps : Nat
  batches : List (List Nat)
  reason : StopReason

/-- The per-round selection: reprocess ideas concatenated before pending
(`in queue`) ideas, truncated to the batch size
(`(reprocess_ideas + pending_ideas)[:settings.processing_batch_size]`). -/
def selectBatch (w : World) (batch_size : Nat) : List Idea :=
  let pending_ideas := get_pending_ideas w
  let reprocess_ideas :=
    (get_all_ideas w).filter (fun i => i.status = "reprocess")
  (reprocess_ideas ++ pending_ideas).take batch_size

/-- The recomputed reprocess count after a round (line 39 of
`process_ideas.py`). -/
def reprocessRemaining (w : World) : Nat :=
  ((get_all_ideas w).filter (fun i => i.status = "reprocess")).length

/-- The `for idea in ideas_to_process` loop: each invocation of
`process_idea` consumes the environment's behaviour for that invocation
(`env k` = the model transcript and the INSERT outcome of call number `k`). -/
def processBatch (prompts : List (String × String))
    (env : Nat → (String → List (String × Jval)) × Bool) (k : Nat)
    (w : World) (batch : List Idea) : World × Nat :=
  match batch with
  | [] => (w, k)
  | d :: rest =>
    processBatch prompts env (k + 1)
      (process_idea prompts (env k).1 (env k).2 w d).1 rest

/-- The `while run_count > 0` loop of `run_processor_batch`.  One iteration:
select the batch; if empty, return (no sleep); otherwise process it,
decrement the counter, and if rounds remain while no idea is left in
`reprocess`, break (no sleep); in every other case `time.sleep(cooldown)`
runs before the condition is re-tested — including when the round budget has
just been exhausted. -/
def runAux (prompts : List (String × String))
    (env : Nat → (String → List (String × Jval)) × Bool) (k : Nat)
    (w : World) (run_count batch_size rounds sleeps : Nat)
    (batches : List (List Nat)) : RunResult :=
  match run_count with
  | 0 => ⟨w, rounds, sleeps, batches, .budget⟩
  | rc + 1 =>
    let batch := selectBatch w batch_size
    if batch.isEmpty then ⟨w, rounds, sleeps, batches, .emptyBatch⟩
    else
      let pres := processBatch prompts env k w batch
      let batches1 := batches ++ [batch.map (fun i => i.id)]
      if 0 < rc ∧ reprocessRemaining pres.1 = 0 then
        ⟨pres.1, rounds + 1, sleeps, batches1, .noReprocess⟩
      else
        runAux prompts env pres.2 pres.1 rc batch_size (rounds + 1)
          (sleeps + 1) batches1

/-- `process_ideas.run_processor_batch`, with `max_rounds =
settings.processing_batch_max_rerun` and `batch_size =
settings.processing_batch_size`. -/
def run_processor_batch (prompts : List (String × String))
    (env : Nat → (String → List (String × Jval)) × Bool) (w : World)
    (max_rounds batch_size : Nat) : RunResult :=
  runAux prompts env 0 w max_rounds batch_size 0 0 []

/-! ## Helper lemmas -/

/-- The minimum-length gate comes first in `_validate_ollama_response`: a
short `content` fails validation whatever the other fields hold. -/
theorem validate_eq_false_of_short_content {resp : List (String × Jval)}
    {pt : String}
    (h : pyLen (dictGet resp "content" (.str "")) < minContentLength pt) :
    validate_ollama_response resp pt = false := by
  unfold validate_ollama_response
  rw [if_pos h]

/-- A dict with a found key is non-empty. -/
theorem ne_nil_of_find?_eq_some {resp : List (String × Jval)} {k : String}
    {p : String × Jval} (h : resp.find? (fun q => q.1 = k) = some p) :
    resp.isEmpty = false := by
  cases resp with
  | nil => simp at h
  | cons a l => rfl

/-! ## Claim C1 -/

/-- C1: whenever the classified type has a registered template and the model
response carries a `content` field shorter than the per-type minimum
(research 1500, article 1000, build 500, default 500), `process_idea` sets
the idea's status to `reprocess` (in particular never to the
awaiting-review status `processed`) and inserts nothing into the Content
Store. -/
theorem short_body_yields_reprocess
    (prompts : List (String × String))
    (callModel : String → List (String × Jval)) (dbOk : Bool) (w : World)
    (idea : Idea) (tpl : String × String) (c : String)
    (htpl : prompts.find? (fun p => p.1 = classifyProjectType idea.idea_text)
      = some tpl)
    (hfield : (callModel (renderPrompt tpl.2 idea.idea_text idea.context_urls)).find?
      (fun p => p.1 = "content") = some ("content", Jval.str c))
    (hshort : c.length < minContentLength (classifyProjectType idea.idea_text)) :
    (process_idea prompts callModel dbOk w idea).1.ideas
        = w.ideas.map (fun i =>
            if i.id = idea.id then { i with status := "reprocess" } else i)
      ∧ (process_idea prompts callModel dbOk w idea).1.contents = w.contents
      ∧ (process_idea prompts callModel dbOk w idea).2 = none := by
  have hget : dictGet (callModel (renderPrompt tpl.2 idea.idea_text idea.context_urls))
      "content" (.str "") = Jval.str c := by
    unfold dictGet
    rw [hfield]
  have hval : validate_ollama_response
      (callModel (renderPrompt tpl.2 idea.idea_text idea.context_urls))
      (classifyProjectType idea.idea_text) = false := by
    apply validate_eq_false_of_short_content
    rw [hget]
    exact hshort
  have hne := ne_nil_of_find?_eq_some hfield
  unfold process_idea
  simp only [htpl, hne, hval]
  simp [add_log_entry, update_idea_status]

/-- Witness for C1 at a concrete input: one queued idea classified
`research`, a template table containing a research template, and a model
response whose `content` has 5 characters (below the 1500 research
minimum). -/
theorem short_body_yields_reprocess_witness :
    (process_idea [("research", "tpl")] (fun _ => [("content", Jval.str "short")])
        true ⟨[⟨0, "hello", "", "in queue", 0⟩], [], [], 1⟩
        ⟨0, "hello", "", "in queue", 0⟩).1.ideas
        = [⟨0, "hello", "", "reprocess", 0⟩]
      ∧ (process_idea [("research", "tpl")] (fun _ => [("content", Jval.str "short")])
        true ⟨[⟨0, "hello", "", "in queue", 0⟩], [], [], 1⟩
        ⟨0, "hello", "", "in queue", 0⟩).1.contents = [] := by
  have h := short_body_yields_reprocess [("research", "tpl")]
    (fun _ => [("content", Jval.str "short")]) true
    ⟨[⟨0, "hello", "", "in queue", 0⟩], [], [], 1⟩
    ⟨0, "hello", "", "in queue", 0⟩ ("research", "tpl") "short"
    (by rfl) (by rfl) (by decide)
  exact ⟨by rw [h.1]; rfl, h.2.1⟩

/-! ## Claim C2 -/

/-- The body used by the C2 counterexample: 500 characters, which meets the
`build` minimum, so only the `next_actions` shape decides validation. -/
def buildBody : String := String.mk (List.replicate 500 'x')

/-- A model response whose `next_actions` entries are bare strings that
would normalize to conforming `{name, priority: low}` dicts (name length
is 40 ≥ 20). -/
def bareStringResp : List (String × Jval) :=
  [("content", Jval.str buildBody),
   ("next_actions", Jval.arr [Jval.str "a string with at least twenty characters"])]

/-- Counterexample to C2: a `build` response whose `next_actions` arrive as
bare strings is NOT normalized before the length check — validation rejects
it outright (`isinstance(action, dict)` fails), and `process_idea` marks the
idea `reprocess` instead of accepting the response. -/
theorem bare_string_actions_rejected_cex :
    validate_ollama_response bareStringResp "build" = false
      ∧ (process_idea [("build", "t")] (fun _ => bareStringResp) true
          ⟨[⟨0, "build a gadget", "", "in queue", 0⟩], [], [], 1⟩
          ⟨0, "build a gadget", "", "in queue", 0⟩).1.ideas
          = [⟨0, "build a gadget", "", "reprocess", 0⟩]
      ∧ (process_idea [("build", "t")] (fun _ => bareStringResp) true
          ⟨[⟨0, "build a gadget", "", "in queue", 0⟩], [], [], 1⟩
          ⟨0, "build a gadget", "", "in queue", 0⟩).1.contents = [] := by
  refine ⟨by decide, by decide, by rfl⟩

/-- C2 (amended): `_validate_ollama_response` runs before any shape
normalization and rejects wrong-shaped entries outright: for build/research
any non-dict `next_actions` entry fails validation, and for article/research
any non-string `next_reading` entry fails validation.  The
string-to-dict and dict-to-string conversions in `process_idea` run only
after validation has passed, where they leave the already-conforming lists
unchanged. -/
theorem shape_mismatch_rejected_before_normalization :
    (∀ (resp : List (String × Jval)) (pt : String) (l : List Jval) (e : Jval),
      (pt = "build" ∨ pt = "research") →
      dictGet resp "next_actions" (.arr []) = .arr l →
      e ∈ l → isDict e = false →
      validate_ollama_response resp pt = false)
    ∧ (∀ (resp : List (String × Jval)) (pt : String) (l : List Jval) (e : Jval),
      (pt = "article" ∨ pt = "research") →
      dictGet resp "next_reading" (.arr []) = .arr l →
      e ∈ l → isStr e = false →
      validate_ollama_response resp pt = false)
    ∧ (∀ (resp : List (String × Jval)) (pt : String) (l : List Jval),
      validate_ollama_response resp pt = true →
      (pt = "build" ∨ pt = "research") →
      dictGet resp "next_actions" (.arr []) = .arr l →
      normalizeActions (.arr l) = .arr l)
    ∧ (∀ (resp : List (String × Jval)) (pt : String) (l : List Jval),
      validate_ollama_response resp pt = true →
      (pt = "article" ∨ pt = "research") →
      dictGet resp "next_reading" (.arr []) = .arr l →
      normalizeReading (.arr l) = .arr l) := by
  have hact : ∀ (resp : List (String × Jval)) (pt : String),
      (pt = "build" ∨ pt = "research") →
      validate_ollama_response resp pt = true → checkActions resp = true := by
    intro resp pt hpt hval
    unfold validate_ollama_response at hval
    by_cases hlen : pyLen (dictGet resp "content" (.str "")) < minContentLength pt
    · rw [if_pos hlen] at hval; exact absurd hval (by simp)
    · rw [if_neg hlen] at hval
      have hbr : (pt == "build" || pt == "research") = true := by
        rcases hpt with rfl | rfl <;> rfl
      by_cases h2 : ((pt == "build" || pt == "research") && !checkActions resp) = true
      · rw [if_pos h2] at hval; exact absurd hval (by simp)
      · cases hc : checkActions resp
        · exact absurd (by rw [hbr, hc]; rfl) h2
        · rfl
  have hread : ∀ (resp : List (String × Jval)) (pt : String),
      (pt = "article" ∨ pt = "research") →
      validate_ollama_response resp pt = true → checkReading resp = true := by
    intro resp pt hpt hval
    unfold validate_ollama_response at hval
    by_cases hlen : pyLen (dictGet resp "content" (.str "")) < minContentLength pt
    · rw [if_pos hlen] at hval; exact absurd hval (by simp)
    · rw [if_neg hlen] at hval
      have har : (pt == "article" || pt == "research") = true := by
        rcases hpt with rfl | rfl <;> rfl
      by_cases h2 : ((pt == "build" || pt == "research") && !checkActions resp) = true
      · rw [if_pos h2] at hval; exact absurd hval (by simp)
      · rw [if_neg h2] at hval
        by_cases h3 : ((pt == "article" || pt == "research") && !checkReading resp) = true
        · rw [if_pos h3] at hval; exact absurd hval (by simp)
        · cases hc : checkReading resp
          · exact absurd (by rw [har, hc]; rfl) h3
          · rfl
  refine ⟨?_, ?_, ?_, ?_⟩
  · intro resp pt l e hpt hget he hnd
    unfold validate_ollama_response
    by_cases hlen : pyLen (dictGet resp "content" (.str "")) < minContentLength pt
    · rw [if_pos hlen]
    · rw [if_neg hlen]
      have hve : validActionEntry e = false := by
        cases e with
        | obj f => simp [isDict] at hnd
        | str s => rfl
        | num n => rfl
        | boolV b => rfl
        | null => rfl
        | arr l2 => rfl
      have hall : l.all validActionEntry = false := by
        cases hl : l.all validActionEntry
        · rfl
        · exact absurd (List.all_eq_true.mp hl e he) (by rw [hve]; simp)
      have hca : checkActions resp = false := by
        unfold checkActions
        rw [hget]
        simp [hall]
      rcases hpt with rfl | rfl <;> simp [hca]
  · intro resp pt l e hpt hget he hns
    unfold validate_ollama_response
    by_cases hlen : pyLen (dictGet resp "content" (.str "")) < minContentLength pt
    · rw [if_pos hlen]
    · rw [if_neg hlen]
      have hve : validReadingEntry e = false := by
        cases e with
        | str s => simp [isStr] at hns
        | obj f => rfl
        | num n => rfl
        | boolV b => rfl
        | null => rfl
        | arr l2 => rfl
      have hall : l.all validReadingEntry = false := by
        cases hl : l.all validReadingEntry
        · rfl
        · exact absurd (List.all_eq_true.mp hl e he) (by rw [hve]; simp)
      have hcr : checkReading resp = false := by
        unfold checkReading
        rw [hget]
        simp [hall]
      rcases hpt with rfl | rfl
      · cases hch : checkActions resp <;> simp [hch, hcr]
      · cases hch : checkActions resp <;> simp [hch, hcr]
  · intro resp pt l hval hpt hget
    have hca := hact resp pt hpt hval
    unfold checkActions at hca
    rw [hget] at hca
    cases l with
    | nil => simp at hca
    | cons first rest =>
      simp only [List.all_cons, Bool.and_eq_true, List.isEmpty_cons, Bool.not_false,
        Bool.true_and] at hca
      have hfirst : validActionEntry first = true := hca.1
      have hnot : isStr first = false := by
        cases first with
        | obj f => rfl
        | str s => exact absurd hfirst (by simp [validActionEntry])
        | num n => exact absurd hfirst (by simp [validActionEntry])
        | boolV b => exact absurd hfirst (by simp [validActionEntry])
        | null => exact absurd hfirst (by simp [validActionEntry])
        | arr l2 => exact absurd hfirst (by simp [validActionEntry])
      simp [normalizeActions, hnot]
  · intro resp pt l hval hpt hget
    have hcr := hread resp pt hpt hval
    unfold checkReading at hcr
    rw [hget] at hcr
    cases l with
    | nil => simp at hcr
    | cons first rest =>
      simp only [List.all_cons, Bool.and_eq_true, List.isEmpty_cons, Bool.not_false,
        Bool.true_and] at hcr
      have hfirst : validReadingEntry first = true := hcr.1
      have hnot : isDict first = false := by
        cases first with
        | str s => rfl
        | obj f => exact absurd hfirst (by simp [validReadingEntry])
        | num n => exact absurd hfirst (by simp [validReadingEntry])
        | boolV b => exact absurd hfirst (by simp [validReadingEntry])
        | null => exact absurd hfirst (by simp [validReadingEntry])
        | arr l2 => exact absurd hfirst (by simp [validReadingEntry])
      simp [normalizeReading, hnot]

/-- Witness for the amended C2 at concrete inputs: a research response with
a numeric `next_actions` entry fails validation, and for a fully valid
build response the post-validation conversion leaves `next_actions`
unchanged. -/
theorem shape_mismatch_rejected_witness :
    validate_ollama_response [("next_actions", Jval.arr [Jval.num 3])] "research" = false
      ∧ normalizeActions (Jval.arr [Jval.obj
            [("name", Jval.str "a sufficiently descriptive action name")]])
          = Jval.arr [Jval.obj
            [("name", Jval.str "a sufficiently descriptive action name")]] := by
  constructor
  · exact shape_mismatch_rejected_before_normalization.1
      [("next_actions", Jval.arr [Jval.num 3])] "research" [Jval.num 3] (Jval.num 3)
      (Or.inr rfl) (by rfl) (by simp) (by rfl)
  · exact shape_mismatch_rejected_before_normalization.2.2.1
      [("content", Jval.str buildBody),
       ("next_actions", Jval.arr [Jval.obj
         [("name", Jval.str "a sufficiently descriptive action name")]])]
      "build"
      [Jval.obj [("name", Jval.str "a sufficiently descriptive action name")]]
      (by decide) (Or.inl rfl) (by rfl)

/-! ## Claim C3 -/

/-- C3: for an existing artifact whose originating idea exists,
`reject_and_requeue` appends exactly one new `in queue` idea whose text is
the original text followed by the correction (so both occur verbatim, as
the prefix/suffix facts state), whose context references are the originals
comma-joined with the corrections (separator and originals omitted when the
original had none), marks the original idea `rejected`, and removes the
artifact from the Content Store; and if the scratchpad insert fails, the
stores are left untouched and `False` is returned. -/
theorem reject_requeues_and_purges
    (w : World) (cid : Nat) (ct cu : String) (cd : ContentView) (orig : Idea)
    (hcd : get_content_by_id w cid = some cd)
    (horig : get_idea w cd.idea_id = some orig)
    (hfresh : ∀ i ∈ w.ideas, i.id < w.nextId) :
    ((reject_and_requeue true true w cid ct cu).2 = true
      ∧ (reject_and_requeue true true w cid ct cu).1.ideas
          = w.ideas.map (fun i =>
              if i.id = cd.idea_id then { i with status := "rejected" } else i)
            ++ [⟨w.nextId, orig.idea_text ++ "\n\n[Correction Notes]: " ++ ct,
                 if orig.context_urls ≠ "" then orig.context_urls ++ "," ++ cu else cu,
                 "in queue", w.nextId⟩]
      ∧ orig.idea_text.data <+: (orig.idea_text ++ "\n\n[Correction Notes]: " ++ ct).data
      ∧ ct.data <:+ (orig.idea_text ++ "\n\n[Correction Notes]: " ++ ct).data
      ∧ (reject_and_requeue true true w cid ct cu).1.contents
          = w.contents.filter (fun c => c.id ≠ cid)
      ∧ get_content_by_id (reject_and_requeue true true w cid ct cu).1 cid = none)
    ∧ (∀ delOk, reject_and_requeue false delOk w cid ct cu = (w, false)) := by
  have horig2 : w.ideas.find? (fun i => i.id = cd.idea_id) = some orig := horig
  have hmem : orig ∈ w.ideas := List.mem_of_find?_eq_some horig2
  have hid : orig.id = cd.idea_id := by
    have hp := List.find?_some horig2
    simpa using hp
  have hlt : cd.idea_id < w.nextId := hid ▸ hfresh orig hmem
  have hneq : ¬ (w.nextId = cd.idea_id) := by omega
  constructor
  · refine ⟨?_, ?_, ?_, ?_, ?_, ?_⟩
    · unfold reject_and_requeue
      rw [hcd]
      simp only [horig]
      rfl
    · unfold reject_and_requeue
      rw [hcd]
      simp only [horig]
      simp [add_idea, update_idea_status, delete_content, hneq]
    · rw [String.data_append, String.data_append, List.append_assoc]
      exact List.prefix_append _ _
    · rw [String.data_append]
      exact List.suffix_append _ _
    · unfold reject_and_requeue
      rw [hcd]
      simp only [horig]
      simp [add_idea, update_idea_status, delete_content]
    · unfold reject_and_requeue
      rw [hcd]
      simp only [horig]
      unfold get_content_by_id
      simp only [add_idea, update_idea_status, delete_content, if_true]
      have hnone : (w.contents.filter (fun c => c.id ≠ cid)).find?
          (fun c => c.id = cid) = none := by
        rw [List.find?_eq_none]
        intro c hc
        have h2 := (List.mem_filter.mp hc).2
        simp only [decide_not, Bool.not_eq_true', decide_eq_false_iff_not] at h2
        simp [h2]
      simp [hnone]
  · intro delOk
    unfold reject_and_requeue
    rw [hcd]
    simp only [horig]
    rfl

/-- Witness for C3 at a concrete input: one idea, one artifact referencing
it; rejecting with a correction succeeds and empties the Content Store. -/
theorem reject_requeues_and_purges_witness :
    (reject_and_requeue true true
        ⟨[⟨0, "original idea", "http://a", "processed", 0⟩],
         [⟨1, 0, "research", Jval.str "t", Jval.str "c", .jsonV (.arr []),
           .jsonV (.arr []), .jsonV (.arr []), "awaiting review", 1⟩], [], 2⟩
        1 "needs fixing" "http://b").2 = true
      ∧ (reject_and_requeue true true
        ⟨[⟨0, "original idea", "http://a", "processed", 0⟩],
         [⟨1, 0, "research", Jval.str "t", Jval.str "c", .jsonV (.arr []),
           .jsonV (.arr []), .jsonV (.arr []), "awaiting review", 1⟩], [], 2⟩
        1 "needs fixing" "http://b").1.ideas
        = [⟨0, "original idea", "http://a", "rejected", 0⟩,
           ⟨2, "original idea" ++ "\n\n[Correction Notes]: " ++ "needs fixing",
            "http://a" ++ "," ++ "http://b", "in queue", 2⟩] := by
  have h := reject_requeues_and_purges
    ⟨[⟨0, "original idea", "http://a", "processed", 0⟩],
     [⟨1, 0, "research", Jval.str "t", Jval.str "c", .jsonV (.arr []),
       .jsonV (.arr []), .jsonV (.arr []), "awaiting review", 1⟩], [], 2⟩
    1 "needs fixing" "http://b"
    ⟨1, 0, "research", Jval.str "t", Jval.str "c", .arr [], .arr [], .arr [],
      "awaiting review", 1⟩
    ⟨0, "original idea", "http://a", "processed", 0⟩
    (by rfl) (by rfl) (by decide)
  refine ⟨h.1.1, ?_⟩
  rw [h.1.2.1]
  rfl

/-! ## Claim C4 -/

/-- C4: when the publish step fails — in particular when credentials are
absent (`hasCreds = false`), which yields an immediate failure rather than
a crash — `approve_and_post_to_notion` returns `False` without mutating any
store: the artifact is still retrievable by id with the same data
(including its `awaiting review` status) and every idea status is
unchanged, so approve can be retried. -/
theorem approve_aborts_on_publish_failure
    (hasCreds netOk dbOk : Bool) (w : World) (cid : Nat) (cd : ContentView)
    (hcd : get_content_by_id w cid = some cd)
    (hfail : hasCreds = false ∨ netOk = false) :
    approve_and_post_to_notion hasCreds netOk dbOk w cid = (w, false)
      ∧ get_content_by_id (approve_and_post_to_notion hasCreds netOk dbOk w cid).1 cid
          = some cd := by
  have hpub : post_to_notion hasCreds netOk = false := by
    rcases hfail with rfl | rfl
    · rfl
    · unfold post_to_notion; cases hasCreds <;> rfl
  have hmain : approve_and_post_to_notion hasCreds netOk dbOk w cid = (w, false) := by
    unfold approve_and_post_to_notion
    rw [hcd]
    simp [hpub]
  exact ⟨hmain, by rw [hmain]; exact hcd⟩

/-- Witness for C4 at a concrete input: credentials absent; approve leaves
the single-artifact store untouched and reports failure. -/
theorem approve_aborts_on_publish_failure_witness :
    approve_and_post_to_notion false true true
        ⟨[⟨0, "t", "", "processed", 0⟩],
         [⟨1, 0, "build", Jval.str "t", Jval.str "c", .jsonV (.arr []),
           .jsonV (.arr []), .jsonV (.arr []), "awaiting review", 1⟩], [], 2⟩ 1
      = (⟨[⟨0, "t", "", "processed", 0⟩],
          [⟨1, 0, "build", Jval.str "t", Jval.str "c", .jsonV (.arr []),
            .jsonV (.arr []), .jsonV (.arr []), "awaiting review", 1⟩], [], 2⟩, false) :=
  (approve_aborts_on_publish_failure false true true
    ⟨[⟨0, "t", "", "processed", 0⟩],
     [⟨1, 0, "build", Jval.str "t", Jval.str "c", .jsonV (.arr []),
       .jsonV (.arr []), .jsonV (.arr []), "awaiting review", 1⟩], [], 2⟩ 1
    ⟨1, 0, "build", Jval.str "t", Jval.str "c", .arr [], .arr [], .arr [],
      "awaiting review", 1⟩ (by rfl) (Or.inl rfl)).1

/-! ## Claim C10 -/

/-- C10: if the publish step succeeds but deleting the artifact from the
Content Store fails, approve returns `False` and mutates nothing — in
particular the originating idea is not marked `approved`, because the
idea-status update is attempted only after a successful deletion. -/
theorem approve_aborts_on_delete_failure
    (w : World) (cid : Nat) (cd : ContentView)
    (hcd : get_content_by_id w cid = some cd) :
    approve_and_post_to_notion true true false w cid = (w, false)
      ∧ (approve_and_post_to_notion true true false w cid).1.ideas = w.ideas := by
  have hmain : approve_and_post_to_notion true true false w cid = (w, false) := by
    unfold approve_and_post_to_notion
    rw [hcd]
    simp [post_to_notion, delete_content]
  exact ⟨hmain, by rw [hmain]⟩

/-- Witness for C10 at a concrete input: publish succeeds, the DELETE
fails, and the stores are untouched with `False` returned. -/
theorem approve_aborts_on_delete_failure_witness :
    approve_and_post_to_notion true true false
        ⟨[⟨0, "t", "", "processed", 0⟩],
         [⟨1, 0, "article", Jval.str "t", Jval.str "c", .jsonV (.arr []),
           .jsonV (.arr []), .jsonV (.arr []), "awaiting review", 1⟩], [], 2⟩ 1
      = (⟨[⟨0, "t", "", "processed", 0⟩],
          [⟨1, 0, "article", Jval.str "t", Jval.str "c", .jsonV (.arr []),
            .jsonV (.arr []), .jsonV (.arr []), "awaiting review", 1⟩], [], 2⟩, false) :=
  (approve_aborts_on_delete_failure
    ⟨[⟨0, "t", "", "processed", 0⟩],
     [⟨1, 0, "article", Jval.str "t", Jval.str "c", .jsonV (.arr []),
       .jsonV (.arr []), .jsonV (.arr []), "awaiting review", 1⟩], [], 2⟩ 1
    ⟨1, 0, "article", Jval.str "t", Jval.str "c", .arr [], .arr [], .arr [],
      "awaiting review", 1⟩ (by rfl)).1

/-! ## Claim C5 -/

/-- 3 reprocess ideas (ids 0, 1, 2) interleaved with 4 queued ideas
(ids 10, 11, 12, 13), in timestamp order. -/
def wBatch : World :=
  ⟨[⟨10, "plain one", "", "in queue", 0⟩,
    ⟨0, "plain two", "", "reprocess", 1⟩,
    ⟨11, "plain three", "", "in queue", 2⟩,
    ⟨1, "plain four", "", "reprocess", 3⟩,
    ⟨12, "plain five", "", "in queue", 4⟩,
    ⟨2, "plain six", "", "reprocess", 5⟩,
    ⟨13, "plain seven", "", "in queue", 6⟩], [], [], 100⟩

/-- An environment whose model calls all yield the empty dict and whose
INSERTs all commit. -/
def envEmpty : Nat → (String → List (String × Jval)) × Bool :=
  fun _ => (fun _ => [], true)

/-- C5: each round processes exactly the ideas with status `reprocess`
concatenated before the ideas with queued status, truncated to the batch
size, in that relative order; with 3 reprocess and 4 queued ideas and batch
size 5 the selection is the 3 reprocess ideas followed by the first 2
queued ones, and a run's first round processes exactly that batch in that
order. -/
theorem batch_selection_order :
    (∀ (w : World) (n : Nat),
      selectBatch w n
        = (w.ideas.filter (fun i => i.status = "reprocess")
            ++ w.ideas.filter (fun i => i.status = "in queue")).take n)
    ∧ (selectBatch wBatch 5).map Idea.id = [0, 1, 2, 10, 11]
    ∧ (run_processor_batch [] envEmpty wBatch 1 5).batches = [[0, 1, 2, 10, 11]] := by
  refine ⟨fun w n => rfl, by decide, by decide⟩

/-! ## Claim C6 -/

/-- Sleep accounting for the batch loop: every completed round is followed
by one `time.sleep(cooldown)` except the round that ends the run through
the `noReprocess` break (rounds remain and no idea is left in `reprocess`);
in particular the final budgeted round IS followed by a sleep. -/
theorem runAux_sleep_accounting (prompts : List (String × String))
    (env : Nat → (String → List (String × Jval)) × Bool) :
    ∀ (rc k : Nat) (w : World) (bs rounds sleeps : Nat)
      (batches : List (List Nat)),
      (runAux prompts env k w rc bs rounds sleeps batches).rounds + sleeps
        = (runAux prompts env k w rc bs rounds sleeps batches).sleeps + rounds
          + (if (runAux prompts env k w rc bs rounds sleeps batches).reason
              = StopReason.noReprocess then 1 else 0) := by
  intro rc
  induction rc with
  | zero =>
    intro k w bs rounds sleeps batches
    simp [runAux]
    omega
  | succ n ih =>
    intro k w bs rounds sleeps batches
    rw [runAux]
    by_cases hemp : (selectBatch w bs).isEmpty = true
    · simp [hemp]
      omega
    · simp only [hemp, Bool.false_eq_true, if_false]
      by_cases hbr : 0 < n ∧
          reprocessRemaining (processBatch prompts env k w (selectBatch w bs)).1 = 0
      · simp [hbr]
        omega
      · rw [if_neg hbr]
        have h := ih (processBatch prompts env k w (selectBatch w bs)).2
          (processBatch prompts env k w (selectBatch w bs)).1 bs (rounds + 1)
          (sleeps + 1) (batches ++ [(selectBatch w bs).map (fun i => i.id)])
        by_cases hr : (runAux prompts env
            (processBatch prompts env k w (selectBatch w bs)).2
            (processBatch prompts env k w (selectBatch w bs)).1 n bs (rounds + 1)
            (sleeps + 1) (batches ++ [(selectBatch w bs).map (fun i => i.id)])).reason
            = StopReason.noReprocess
        · rw [if_pos hr] at h ⊢
          omega
        · rw [if_neg hr] at h ⊢
          omega

/-- One queued idea and no templates: the single budgeted round is run. -/
def wOneQueued : World := ⟨[⟨0, "plain", "", "in queue", 0⟩], [], [], 1⟩

/-- Counterexample to C6: with `max_rounds = 1`, after the only round there
are zero rounds remaining and zero `reprocess` ideas, yet the runner still
sleeps once before exiting — the `run_count > 0` guard skips the break, not
the `time.sleep` call, so the cooldown wait is not conditional on rounds
remaining. -/
theorem final_round_sleeps_cex :
    (run_processor_batch [] envEmpty wOneQueued 1 5).sleeps = 1
      ∧ (run_processor_batch [] envEmpty wOneQueued 1 5).rounds = 1
      ∧ reprocessRemaining (run_processor_batch [] envEmpty wOneQueued 1 5).world = 0
      ∧ (run_processor_batch [] envEmpty wOneQueued 1 5).reason = StopReason.budget := by
  refine ⟨by decide, by decide, by decide, by decide⟩

/-- C6 (amended): after each completed round the runner sleeps for the
cooldown, except that it stops without sleeping when rounds remain and no
idea is left in `reprocess` (the early break) — so a run that ends through
the break performs `rounds - 1` sleeps, while a run that ends with an empty
batch or an exhausted budget performs one sleep per round, including after
the final budgeted round.  The spec's early-stop example holds: with
`max_rounds = 3` and zero `reprocess` ideas after round one, exactly one
round runs and no sleep occurs. -/
theorem cooldown_sleep_characterization :
    (∀ (prompts : List (String × String))
      (env : Nat → (String → List (String × Jval)) × Bool) (w : World)
      (mr bs : Nat),
      (run_processor_batch prompts env w mr bs).rounds
        = (run_processor_batch prompts env w mr bs).sleeps
          + (if (run_processor_batch prompts env w mr bs).reason
              = StopReason.noReprocess then 1 else 0))
    ∧ (run_processor_batch [] envEmpty wBatch 3 5).rounds = 1
    ∧ (run_processor_batch [] envEmpty wBatch 3 5).sleeps = 0
    ∧ (run_processor_batch [] envEmpty wBatch 3 5).reason = StopReason.noReprocess := by
  refine ⟨?_, by decide, by decide, by decide⟩
  intro prompts env w mr bs
  have h := runAux_sleep_accounting prompts env mr 0 w bs 0 0 []
  unfold run_processor_batch
  omega

/-! ## Claim C7 -/

/-- Counterexample to C7's logging conjunct: with no template registered for
the classified type, `process_idea` sets the idea to `error` and creates no
artifact, but appends NO failure entry to the Log Store — the log holds only
the generic "Processing idea" entry (the branch merely prints to the
console). -/
theorem config_error_not_logged_cex :
    (process_idea [] (fun _ => []) true ⟨[⟨0, "plain", "", "in queue", 0⟩], [], [], 1⟩
        ⟨0, "plain", "", "in queue", 0⟩).1.ideas = [⟨0, "plain", "", "error", 0⟩]
      ∧ (process_idea [] (fun _ => []) true ⟨[⟨0, "plain", "", "in queue", 0⟩], [], [], 1⟩
        ⟨0, "plain", "", "in queue", 0⟩).1.logs = [(0, "Processing idea: 0")]
      ∧ (process_idea [] (fun _ => []) true ⟨[⟨0, "plain", "", "in queue", 0⟩], [], [], 1⟩
        ⟨0, "plain", "", "in queue", 0⟩).1.contents = []
      ∧ (process_idea [] (fun _ => []) true ⟨[⟨0, "plain", "", "in queue", 0⟩], [], [], 1⟩
        ⟨0, "plain", "", "in queue", 0⟩).2 = none := by
  refine ⟨by decide, by decide, by rfl, by rfl⟩

/-- C7 (amended): `process_idea` assigns `error` exactly when no template is
registered for the classified type or the model call yields the empty dict
(the reduction of every transport failure and malformed response), assigns
`reprocess` exactly when validation of a non-empty response fails, and
assigns `processed` otherwise; in every failure case no artifact is created,
and the empty-response and validation failures are appended to the Log
Store — while the missing-template configuration error is only reported to
the console, not logged. -/
theorem failure_status_characterization
    (prompts : List (String × String))
    (callModel : String → List (String × Jval)) (dbOk : Bool) (w : World)
    (idea : Idea) :
    (prompts.find? (fun p => p.1 = classifyProjectType idea.idea_text) = none →
      (process_idea prompts callModel dbOk w idea).1.ideas
          = w.ideas.map (fun i =>
              if i.id = idea.id then { i with status := "error" } else i)
        ∧ (process_idea prompts callModel dbOk w idea).1.contents = w.contents
        ∧ (process_idea prompts callModel dbOk w idea).1.logs
            = w.logs ++ [(idea.id, "Processing idea: " ++ toString idea.id)]
        ∧ (process_idea prompts callModel dbOk w idea).2 = none)
    ∧ (∀ tpl,
        prompts.find? (fun p => p.1 = classifyProjectType idea.idea_text) = some tpl →
        callModel (renderPrompt tpl.2 idea.idea_text idea.context_urls) = [] →
        (process_idea prompts callModel dbOk w idea).1.ideas
            = w.ideas.map (fun i =>
                if i.id = idea.id then { i with status := "error" } else i)
          ∧ (process_idea prompts callModel dbOk w idea).1.contents = w.contents
          ∧ (process_idea prompts callModel dbOk w idea).1.logs
              = w.logs ++ [(idea.id, "Processing idea: " ++ toString idea.id),
                  (idea.id, "Ollama returned an empty response.")]
          ∧ (process_idea prompts callModel dbOk w idea).2 = none)
    ∧ (∀ tpl resp,
        prompts.find? (fun p => p.1 = classifyProjectType idea.idea_text) = some tpl →
        callModel (renderPrompt tpl.2 idea.idea_text idea.context_urls) = resp →
        resp ≠ [] →
        validate_ollama_response resp (classifyProjectType idea.idea_text) = false →
        (process_idea prompts callModel dbOk w idea).1.ideas
            = w.ideas.map (fun i =>
                if i.id = idea.id then { i with status := "reprocess" } else i)
          ∧ (process_idea prompts callModel dbOk w idea).1.contents = w.contents
          ∧ (process_idea prompts callModel dbOk w idea).1.logs
              = w.logs ++ [(idea.id, "Processing idea: " ++ toString idea.id),
                  (idea.id, "Response failed validation. Re-queuing.")]
          ∧ (process_idea prompts callModel dbOk w idea).2 = none)
    ∧ (∀ tpl resp,
        prompts.find? (fun p => p.1 = classifyProjectType idea.idea_text) = some tpl →
        callModel (renderPrompt tpl.2 idea.idea_text idea.context_urls) = resp →
        resp ≠ [] →
        validate_ollama_response resp (classifyProjectType idea.idea_text) = true →
        (process_idea prompts callModel dbOk w idea).1.ideas
            = w.ideas.map (fun i =>
                if i.id = idea.id then { i with status := "processed" } else i)
          ∧ (process_idea prompts callModel dbOk w idea).2 = some idea.id) := by
  refine ⟨?_, ?_, ?_, ?_⟩
  · intro hnone
    unfold process_idea
    simp only [hnone]
    simp [add_log_entry, update_idea_status]
  · intro tpl htpl hresp
    unfold process_idea
    simp only [htpl, hresp, List.isEmpty_nil, if_true]
    simp [add_log_entry, update_idea_status]
  · intro tpl resp htpl hresp hne hval
    have hemp : resp.isEmpty = false := by
      cases resp with
      | nil => exact absurd rfl hne
      | cons a l => rfl
    unfold process_idea
    simp only [htpl, hresp, hemp, hval]
    simp [add_log_entry, update_idea_status]
  · intro tpl resp htpl hresp hne hval
    have hemp : resp.isEmpty = false := by
      cases resp with
      | nil => exact absurd rfl hne
      | cons a l => rfl
    unfold process_idea
    simp only [htpl, hresp, hemp, hval]
    cases dbOk <;> simp [add_log_entry, update_idea_status, add_content]

/-- Witness for the amended C7 at a concrete input: no templates, so the
idea moves to `error`, nothing is inserted, and nothing is returned. -/
theorem failure_status_characterization_witness :
    (process_idea [] (fun _ => []) true ⟨[⟨3, "plain", "", "in queue", 7⟩], [], [], 4⟩
        ⟨3, "plain", "", "in queue", 7⟩).1.ideas = [⟨3, "plain", "", "error", 7⟩]
      ∧ (process_idea [] (fun _ => []) true ⟨[⟨3, "plain", "", "in queue", 7⟩], [], [], 4⟩
        ⟨3, "plain", "", "in queue", 7⟩).2 = none := by
  have h := (failure_status_characterization [] (fun _ => []) true
    ⟨[⟨3, "plain", "", "in queue", 7⟩], [], [], 4⟩
    ⟨3, "plain", "", "in queue", 7⟩).1 (by rfl)
  exact ⟨by rw [h.1]; rfl, h.2.2.2⟩

/-! ## Claim C9 -/

/-- `find?` skips a prefix in which nothing matches. -/
theorem find?_append_of_none {α : Type} {p : α → Bool} {l1 l2 : List α}
    (h : l1.find? p = none) : (l1 ++ l2).find? p = l2.find? p := by
  induction l1 with
  | nil => rfl
  | cons a t ih =>
    cases hpa : p a with
    | true => simp [List.find?, hpa] at h
    | false =>
      simp only [List.cons_append, List.find?, hpa] at h ⊢
      exact ih h

/-- Counterexample to C9: inserting a bare-string `next_actions` list and
re-reading the artifact returns the bare strings unchanged — `json.loads`
succeeds on the `json.dumps` output, so nothing is normalized to
`{name: ..., priority: "low"}`. -/
theorem insert_get_no_normalization_cex :
    ((get_content_by_id
        (add_content ⟨[], [], [], 0⟩ true 7 "research" (Jval.str "t") (Jval.str "c")
          (Jval.arr []) (Jval.arr [Jval.str "hello"]) (Jval.arr [])).1 0).map
        (fun v => v.next_actions)) = some (Jval.arr [Jval.str "hello"])
      ∧ ¬ (((get_content_by_id
        (add_content ⟨[], [], [], 0⟩ true 7 "research" (Jval.str "t") (Jval.str "c")
          (Jval.arr []) (Jval.arr [Jval.str "hello"]) (Jval.arr [])).1 0).map
        (fun v => v.next_actions))
          = some (Jval.arr [Jval.obj
              [("name", Jval.str "hello"), ("priority", Jval.str "low")]])) := by
  have hpos : ((get_content_by_id
      (add_content ⟨[], [], [], 0⟩ true 7 "research" (Jval.str "t") (Jval.str "c")
        (Jval.arr []) (Jval.arr [Jval.str "hello"]) (Jval.arr [])).1 0).map
      (fun v => v.next_actions)) = some (Jval.arr [Jval.str "hello"]) := rfl
  refine ⟨hpos, ?_⟩
  rw [hpos]
  intro h
  have h1 := Option.some.inj h
  have h2 := Jval.arr.inj h1
  have h3 := (List.cons.inj h2).1
  exact Jval.noConfusion h3

/-- C9 (amended): the insert-then-get round trip returns the stored
`next_actions` list unchanged — bare strings stay bare strings; the
`{name, priority: "low"}` wrapping happens only when the stored cell text
is not valid JSON (the legacy fallback, which splits on newlines). -/
theorem insert_get_roundtrip
    (w : World) (idea_id : Nat) (pt : String) (title content tags reading : Jval)
    (actions : List Jval)
    (hne : actions ≠ [])
    (hfresh : ∀ c ∈ w.contents, c.id ≠ w.nextId) :
    (((get_content_by_id
        (add_content w true idea_id pt title content tags (Jval.arr actions) reading).1
        w.nextId).map (fun v => v.next_actions)) = some (Jval.arr actions))
    ∧ (∀ (w2 : World) (cid : Nat) (c : ContentItem) (s : String),
        w2.contents.find? (fun x => x.id = cid) = some c →
        c.next_actions = DbCell.rawS s →
        (get_content_by_id w2 cid).map (fun v => v.next_actions)
          = some (Jval.arr ((pySplitStr s '\n').map (fun part =>
              Jval.obj [("name", Jval.str (pyStrip part)), ("priority", Jval.str "low")])))) := by
  constructor
  · have htru : jtruthy (Jval.arr actions) = true := by
      cases actions with
      | nil => exact absurd rfl hne
      | cons a t => rfl
    have hnone : w.contents.find? (fun c => c.id = w.nextId) = none := by
      rw [List.find?_eq_none]
      intro c hc
      simp [hfresh c hc]
    unfold add_content get_content_by_id
    simp only [if_true, htru]
    rw [find?_append_of_none hnone]
    simp [loadActionsCell]
  · intro w2 cid c s hfind hcell
    unfold get_content_by_id
    rw [hfind]
    simp only [Option.map_some']
    rw [hcell]
    simp [loadActionsCell]

/-- Witness for the amended C9 at concrete inputs: a one-element bare-string
list round-trips unchanged, and a legacy non-JSON cell is read back
normalized. -/
theorem insert_get_roundtrip_witness :
    (((get_content_by_id
        (add_content ⟨[], [], [], 0⟩ true 7 "research" (Jval.str "t") (Jval.str "c")
          (Jval.arr []) (Jval.arr [Jval.str "alpha"]) (Jval.arr [])).1 0).map
        (fun v => v.next_actions)) = some (Jval.arr [Jval.str "alpha"]))
    ∧ ((get_content_by_id
        ⟨[], [⟨5, 1, "build", Jval.str "t", Jval.str "c", .jsonV (.arr []),
          .rawS " alpha \nbeta", .jsonV (.arr []), "awaiting review", 5⟩], [], 6⟩ 5).map
        (fun v => v.next_actions)
          = some (Jval.arr [Jval.obj [("name", Jval.str "alpha"), ("priority", Jval.str "low")],
              Jval.obj [("name", Jval.str "beta"), ("priority", Jval.str "low")]])) := by
  have h := insert_get_roundtrip ⟨[], [], [], 0⟩ 7 "research" (Jval.str "t")
    (Jval.str "c") (Jval.arr []) (Jval.arr []) [Jval.str "alpha"]
    (by simp) (by simp)
  constructor
  · exact h.1
  · have h2 := h.2 ⟨[], [⟨5, 1, "build", Jval.str "t", Jval.str "c", .jsonV (.arr []),
      .rawS " alpha \nbeta", .jsonV (.arr []), "awaiting review", 5⟩], [], 6⟩ 5
      ⟨5, 1, "build", Jval.str "t", Jval.str "c", .jsonV (.arr []),
        .rawS " alpha \nbeta", .jsonV (.arr []), "awaiting review", 5⟩
      " alpha \nbeta" (by rfl) (by rfl)
    rw [h2]
    rfl

/-! ## Claim C8 -/

/-- Number of live artifacts in the Content Store referencing the idea `n`. -/
def liveArtifacts (w : World) (n : Nat) : Nat :=
  (w.contents.filter (fun c => c.idea_id = n)).length

/-- The spec's model invariant: every idea has at most one live artifact. -/
def atMostOneLive (w : World) : Prop :=
  ∀ n, liveArtifacts w n ≤ 1

/-- Executable rendering of `atMostOneLive` for concrete worlds. -/
def atMostOneLiveB (w : World) : Bool :=
  w.contents.all (fun c => liveArtifacts w c.idea_id ≤ 1)

/-- The strengthened invariant that IS inductive for the pipeline: fresh
identifiers really are fresh (ids below the counter, unique idea ids — the
model of `uuid4` plus the `PRIMARY KEY` constraint), at most one live
artifact per idea, and additionally no queued/reprocess idea owns a live
artifact. -/
structure Wf (w : World) : Prop where
  ideasBound : ∀ i ∈ w.ideas, i.id < w.nextId
  contentsBound : ∀ c ∈ w.contents, c.idea_id < w.nextId
  ideasNodup : (w.ideas.map Idea.id).Nodup
  atMostOne : atMostOneLive w
  pendingClean : ∀ i ∈ w.ideas,
    (i.status = "in queue" ∨ i.status = "reprocess") → liveArtifacts w i.id = 0

/-- `process_idea` only rewrites the status of the processed idea's id, and
either leaves the Content Store untouched or (exactly on the success path)
appends one artifact referencing the processed idea. -/
theorem process_idea_world_shape (p : List (String × String))
    (cm : String → List (String × Jval)) (dbOk : Bool) (w : World) (d : Idea) :
    (∃ st, (process_idea p cm dbOk w d).1.ideas
        = w.ideas.map (fun i => if i.id = d.id then { i with status := st } else i))
    ∧ ((process_idea p cm dbOk w d).1.contents = w.contents
          ∧ (process_idea p cm dbOk w d).1.nextId = w.nextId
        ∨ (∃ a : ContentItem,
            (process_idea p cm dbOk w d).1.contents = w.contents ++ [a]
            ∧ a.idea_id = d.id
            ∧ (process_idea p cm dbOk w d).1.nextId = w.nextId + 1
            ∧ (process_idea p cm dbOk w d).1.ideas
                = w.ideas.map (fun i =>
                    if i.id = d.id then { i with status := "processed" } else i))) := by
  unfold process_idea
  cases htpl : p.find? (fun q => q.1 = classifyProjectType d.idea_text) with
  | none =>
    refine ⟨⟨"error", ?_⟩, Or.inl ⟨?_, ?_⟩⟩ <;>
      simp [htpl, add_log_entry, update_idea_status]
  | some tpl =>
    cases hemp : (cm (renderPrompt tpl.2 d.idea_text d.context_urls)).isEmpty with
    | true =>
      refine ⟨⟨"error", ?_⟩, Or.inl ⟨?_, ?_⟩⟩ <;>
        simp [htpl, hemp, add_log_entry, update_idea_status]
    | false =>
      cases hval : validate_ollama_response
          (cm (renderPrompt tpl.2 d.idea_text d.context_urls))
          (classifyProjectType d.idea_text) with
      | false =>
        refine ⟨⟨"reprocess", ?_⟩, Or.inl ⟨?_, ?_⟩⟩ <;>
          simp [htpl, hemp, hval, add_log_entry, update_idea_status]
      | true =>
        cases dbOk with
        | false =>
          refine ⟨⟨"processed", ?_⟩, Or.inl ⟨?_, ?_⟩⟩ <;>
            simp [htpl, hemp, hval, add_log_entry, update_idea_status, add_content]
        | true =>
          constructor
          · exact ⟨"processed", by
              simp [htpl, hemp, hval, add_log_entry, update_idea_status, add_content]⟩
          · right
            simp only [htpl, hemp, hval, Bool.not_true, Bool.false_eq_true, if_false,
              add_log_entry, update_idea_status, add_content, if_true]
            refine ⟨_, rfl, ?_, ?_, ?_⟩ <;> simp

/-- The status rewrite of `update_idea_status` keeps ids. -/
theorem statusUpdate_id (d : Idea) (tid : Nat) (st : String) :
    (if d.id = tid then { d with status := st } else d).id = d.id := by
  by_cases h : d.id = tid <;> simp [h]

/-- A status-rewritten ideas table has the same id column. -/
theorem map_statusUpdate_ids (l : List Idea) (tid : Nat) (st : String) :
    (l.map (fun i => if i.id = tid then { i with status := st } else i)).map Idea.id
      = l.map Idea.id := by
  rw [List.map_map]
  exact List.map_congr_left (fun a _ => statusUpdate_id a tid st)

/-- `process_idea` preserves the strengthened invariant whenever the
processed row is a queued/reprocess idea of the store (which is exactly how
the batch runner invokes it). -/
theorem process_idea_preserves_Wf (p : List (String × String))
    (cm : String → List (String × Jval)) (dbOk : Bool) (w : World) (d : Idea)
    (hw : Wf w)
    (hd : ∃ e ∈ w.ideas, e.id = d.id
      ∧ (e.status = "in queue" ∨ e.status = "reprocess")) :
    Wf (process_idea p cm dbOk w d).1 := by
  obtain ⟨e, hemem, heid, hepend⟩ := hd
  have hzero : liveArtifacts w d.id = 0 := heid ▸ hw.pendingClean e hemem hepend
  have hdlt : d.id < w.nextId := heid ▸ hw.ideasBound e hemem
  obtain ⟨⟨st, hideas⟩, hcase⟩ := process_idea_world_shape p cm dbOk w d
  rcases hcase with ⟨hcon, hnext⟩ | ⟨a, hcon, haid, hnext, hideas2⟩
  · constructor
    · intro i hi
      rw [hideas] at hi
      obtain ⟨j, hj, rfl⟩ := List.mem_map.mp hi
      rw [hnext, statusUpdate_id]
      exact hw.ideasBound j hj
    · intro c hc
      rw [hcon] at hc
      rw [hnext]
      exact hw.contentsBound c hc
    · rw [hideas, map_statusUpdate_ids]
      exact hw.ideasNodup
    · intro n
      unfold liveArtifacts
      rw [hcon]
      exact hw.atMostOne n
    · intro i hi hpend
      rw [hideas] at hi
      obtain ⟨j, hj, rfl⟩ := List.mem_map.mp hi
      unfold liveArtifacts
      rw [hcon, statusUpdate_id]
      by_cases hjid : j.id = d.id
      · rw [hjid]
        exact hzero
      · refine hw.pendingClean j hj ?_
        simpa [hjid] using hpend
  · have hcount : ∀ n, liveArtifacts (process_idea p cm dbOk w d).1 n
        = liveArtifacts w n + (if a.idea_id = n then 1 else 0) := by
      intro n
      unfold liveArtifacts
      rw [hcon, List.filter_append, List.length_append]
      congr 1
      by_cases h : a.idea_id = n <;> simp [h]
    constructor
    · intro i hi
      rw [hideas2] at hi
      obtain ⟨j, hj, rfl⟩ := List.mem_map.mp hi
      rw [hnext, statusUpdate_id]
      exact Nat.lt_succ_of_lt (hw.ideasBound j hj)
    · intro c hc
      rw [hcon] at hc
      rw [hnext]
      rcases List.mem_append.mp hc with h | h
      · exact Nat.lt_succ_of_lt (hw.contentsBound c h)
      · rw [List.mem_singleton.mp h, haid]
        exact Nat.lt_succ_of_lt hdlt
    · rw [hideas2, map_statusUpdate_ids]
      exact hw.ideasNodup
    · intro n
      rw [hcount n]
      by_cases h : a.idea_id = n
      · have : liveArtifacts w n = 0 := by
          rw [← h, haid]
          exact hzero
        simp [h, this]
      · simpa [h] using hw.atMostOne n
    · intro i hi hpend
      rw [hideas2] at hi
      obtain ⟨j, hj, rfl⟩ := List.mem_map.mp hi
      by_cases hjid : j.id = d.id
      · rw [hjid] at hpend
        simp at hpend
      · rw [statusUpdate_id, hcount j.id]
        have h0 : liveArtifacts w j.id = 0 := by
          refine hw.pendingClean j hj ?_
          simpa [hjid] using hpend
        have hne : ¬ (a.idea_id = j.id) := by
          rw [haid]
          exact fun h => hjid h.symm
        simp [h0, hne]

/-- A filter by a predicate that fails everywhere is empty. -/
theorem filter_nil_of_false {α : Type} {p : α → Bool} {l : List α}
    (h : ∀ a ∈ l, p a = false) : l.filter p = [] := by
  induction l with
  | nil => rfl
  | cons a t ih =>
    rw [List.filter_cons, h a (List.mem_cons_self a t)]
    exact ih (fun b hb => h b (List.mem_cons_of_mem a hb))

/-- Every selected batch member is a stored queued/reprocess idea. -/
theorem selectBatch_mem (w : World) (bs : Nat) :
    ∀ d ∈ selectBatch w bs, d ∈ w.ideas
      ∧ (d.status = "in queue" ∨ d.status = "reprocess") := by
  intro d hd
  unfold selectBatch get_pending_ideas get_all_ideas at hd
  have hd2 := List.take_subset _ _ hd
  rcases List.mem_append.mp hd2 with h | h
  · have hm := List.mem_filter.mp h
    exact ⟨hm.1, Or.inr (by simpa using hm.2)⟩
  · have hm := List.mem_filter.mp h
    exact ⟨hm.1, Or.inl (by simpa using hm.2)⟩

/-- With unique idea ids, the selected batch has unique ids (the reprocess
and queued filters are disjoint). -/
theorem selectBatch_nodup (w : World) (bs : Nat)
    (h : (w.ideas.map Idea.id).Nodup) :
    ((selectBatch w bs).map Idea.id).Nodup := by
  unfold selectBatch get_pending_ideas get_all_ideas
  rw [List.map_take]
  apply List.Sublist.nodup (List.take_sublist _ _)
  rw [List.map_append]
  apply List.Nodup.append
  · exact List.Sublist.nodup ((List.filter_sublist _).map _) h
  · exact List.Sublist.nodup ((List.filter_sublist _).map _) h
  · intro x hx1 hx2
    obtain ⟨a, haf, hax⟩ := List.mem_map.mp hx1
    obtain ⟨b, hbf, hbx⟩ := List.mem_map.mp hx2
    have hamem := (List.mem_filter.mp haf).1
    have hast := (List.mem_filter.mp haf).2
    have hbmem := (List.mem_filter.mp hbf).1
    have hbst := (List.mem_filter.mp hbf).2
    have hab : a = b :=
      List.inj_on_of_nodup_map h hamem hbmem (by rw [hax, hbx])
    rw [hab] at hast
    simp only [decide_eq_true_eq] at hast hbst
    rw [hbst] at hast
    exact absurd hast (by decide)

/-- The batch loop body preserves `Wf` when the batch rows are stored
queued/reprocess ideas with pairwise-distinct ids (which is what
`selectBatch` produces). -/
theorem processBatch_preserves_Wf (p : List (String × String))
    (env : Nat → (String → List (String × Jval)) × Bool) :
    ∀ (batch : List Idea) (k : Nat) (w : World),
      Wf w →
      (∀ d ∈ batch, ∃ e ∈ w.ideas, e.id = d.id
        ∧ (e.status = "in queue" ∨ e.status = "reprocess")) →
      (batch.map Idea.id).Nodup →
      Wf (processBatch p env k w batch).1 := by
  intro batch
  induction batch with
  | nil =>
    intro k w hw _ _
    exact hw
  | cons d rest ih =>
    intro k w hw hsel hnd
    simp only [List.map_cons, List.nodup_cons] at hnd
    have hw1 := process_idea_preserves_Wf p (env k).1 (env k).2 w d hw
      (hsel d (List.mem_cons_self d rest))
    obtain ⟨⟨st, hideas⟩, _⟩ := process_idea_world_shape p (env k).1 (env k).2 w d
    have hrest : ∀ d2 ∈ rest,
        ∃ e ∈ (process_idea p (env k).1 (env k).2 w d).1.ideas,
          e.id = d2.id ∧ (e.status = "in queue" ∨ e.status = "reprocess") := by
      intro d2 hd2
      obtain ⟨e, hemem, heid, hepend⟩ := hsel d2 (List.mem_cons_of_mem d hd2)
      have hne : e.id ≠ d.id := by
        rw [heid]
        intro hcontra
        exact hnd.1 (List.mem_map.mpr ⟨d2, hd2, hcontra⟩)
      refine ⟨e, ?_, heid, hepend⟩
      rw [hideas]
      exact List.mem_map.mpr ⟨e, hemem, by simp [hne]⟩
    exact ih (k + 1) _ hw1 hrest hnd.2

/-- Every round of the batch runner preserves `Wf`. -/
theorem runAux_preserves_Wf (p : List (String × String))
    (env : Nat → (String → List (String × Jval)) × Bool) :
    ∀ (rc k : Nat) (w : World) (bs rounds sleeps : Nat)
      (batches : List (List Nat)),
      Wf w → Wf (runAux p env k w rc bs rounds sleeps batches).world := by
  intro rc
  induction rc with
  | zero =>
    intro k w bs rounds sleeps batches hw
    exact hw
  | succ n ih =>
    intro k w bs rounds sleeps batches hw
    rw [runAux]
    have hbatchWf : Wf (processBatch p env k w (selectBatch w bs)).1 := by
      apply processBatch_preserves_Wf p env (selectBatch w bs) k w hw
      · intro d hd
        obtain ⟨hmem, hst⟩ := selectBatch_mem w bs d hd
        exact ⟨d, hmem, rfl, hst⟩
      · exact selectBatch_nodup w bs hw.ideasNodup
    by_cases hemp : (selectBatch w bs).isEmpty = true
    · simp only [hemp, if_true]
      exact hw
    · simp only [hemp, Bool.false_eq_true, if_false]
      by_cases hbr : 0 < n ∧
          reprocessRemaining (processBatch p env k w (selectBatch w bs)).1 = 0
      · rw [if_pos hbr]
        exact hbatchWf
      · rw [if_neg hbr]
        exact ih _ _ bs _ _ _ hbatchWf

/-- Filtering the Content Store can only lower artifact counts, so it
preserves `Wf`. -/
theorem Wf_filter_contents (w : World) (q : ContentItem → Bool) (hw : Wf w) :
    Wf { w with contents := w.contents.filter q } := by
  have hcount : ∀ n, liveArtifacts { w with contents := w.contents.filter q } n
      ≤ liveArtifacts w n := by
    intro n
    exact List.Sublist.length_le (List.Sublist.filter _ (List.filter_sublist _))
  constructor
  · exact hw.ideasBound
  · intro c hc
    exact hw.contentsBound c (List.mem_of_mem_filter hc)
  · exact hw.ideasNodup
  · intro n
    exact le_trans (hcount n) (hw.atMostOne n)
  · intro i hi hp
    exact Nat.le_zero.mp (le_trans (hcount i.id) (Nat.le_of_eq (hw.pendingClean i hi hp)))

/-- Rewriting statuses to a non-pending status preserves `Wf`. -/
theorem Wf_update_status (w : World) (tid : Nat) (st : String)
    (hst : st ≠ "in queue" ∧ st ≠ "reprocess") (hw : Wf w) :
    Wf (update_idea_status w tid st).1 := by
  unfold update_idea_status
  constructor
  · intro i hi
    obtain ⟨j, hj, rfl⟩ := List.mem_map.mp hi
    rw [statusUpdate_id]
    exact hw.ideasBound j hj
  · exact hw.contentsBound
  · rw [map_statusUpdate_ids]
    exact hw.ideasNodup
  · exact hw.atMostOne
  · intro i hi hp
    obtain ⟨j, hj, rfl⟩ := List.mem_map.mp hi
    by_cases hjid : j.id = tid
    · rw [hjid] at hp ⊢
      simp only [if_pos rfl] at hp
      rcases hp with h | h
      · exact absurd h hst.1
      · exact absurd h hst.2
    · rw [statusUpdate_id]
      refine hw.pendingClean j hj ?_
      simpa [hjid] using hp

/-- Inserting a fresh queued idea preserves `Wf` (the fresh id owns no
artifact because every stored `idea_id` precedes the counter). -/
theorem Wf_add_idea (w : World) (t u : String) (hw : Wf w) :
    Wf (add_idea w true t u).1 := by
  unfold add_idea
  rw [if_pos rfl]
  constructor
  · intro i hi
    rcases List.mem_append.mp hi with h | h
    · exact Nat.lt_succ_of_lt (hw.ideasBound i h)
    · rw [List.mem_singleton.mp h]
      exact Nat.lt_succ_self _
  · intro c hc
    exact Nat.lt_succ_of_lt (hw.contentsBound c hc)
  · rw [List.map_append]
    refine List.Nodup.append hw.ideasNodup (by simp) ?_
    intro x hx hx2
    obtain ⟨j, hj, hjx⟩ := List.mem_map.mp hx
    have hb := hw.ideasBound j hj
    simp only [List.map_cons, List.map_nil, List.mem_singleton] at hx2
    omega
  · exact hw.atMostOne
  · intro i hi hp
    rcases List.mem_append.mp hi with h | h
    · exact hw.pendingClean i h hp
    · rw [List.mem_singleton.mp h]
      unfold liveArtifacts
      rw [filter_nil_of_false (fun c hc => by
        have := hw.contentsBound c hc
        simp
        omega)]
      rfl

/-- `approve_and_post_to_notion` preserves `Wf`. -/
theorem approve_preserves_Wf (hasCreds netOk dbOk : Bool) (w : World)
    (cid : Nat) (hw : Wf w) :
    Wf (approve_and_post_to_notion hasCreds netOk dbOk w cid).1 := by
  unfold approve_and_post_to_notion
  cases hcd : get_content_by_id w cid with
  | none => exact hw
  | some cd =>
    simp only
    by_cases hpub : post_to_notion hasCreds netOk = true
    · rw [if_pos hpub]
      cases dbOk with
      | false => exact hw
      | true =>
        have hfil := Wf_filter_contents w (fun c => c.id ≠ cid) hw
        by_cases hany : w.contents.any (fun c => c.id = cid) = true
        · simp only [delete_content, if_true, hany]
          exact Wf_update_status _ cd.idea_id "approved" ⟨by decide, by decide⟩ hfil
        · simp only [delete_content, if_true, Bool.not_eq_true] at hany ⊢
          rw [hany]
          exact hfil
    · rw [if_neg hpub]
      exact hw

/-- `reject_and_requeue` preserves `Wf`. -/
theorem reject_preserves_Wf (insertOk delOk : Bool) (w : World) (cid : Nat)
    (ct cu : String) (hw : Wf w) :
    Wf (reject_and_requeue insertOk delOk w cid ct cu).1 := by
  unfold reject_and_requeue
  cases hcd : get_content_by_id w cid with
  | none => exact hw
  | some cd =>
    simp only
    cases horig : get_idea w cd.idea_id with
    | none => exact hw
    | some orig =>
      simp only
      cases insertOk with
      | false => exact hw
      | true =>
        have h1 := Wf_add_idea w
          (orig.idea_text ++ "\n\n[Correction Notes]: " ++ ct)
          (if orig.context_urls ≠ "" then orig.context_urls ++ "," ++ cu else cu) hw
        have h2 := Wf_update_status (add_idea w true
          (orig.idea_text ++ "\n\n[Correction Notes]: " ++ ct)
          (if orig.context_urls ≠ "" then orig.context_urls ++ "," ++ cu else cu)).1
          cd.idea_id "rejected" ⟨by decide, by decide⟩ h1
        cases delOk with
        | false => exact h2
        | true => exact Wf_filter_contents _ (fun c => c.id ≠ cid) h2

/-- Templates for all three project types. -/
def promptsAll : List (String × String) :=
  [("research", "r"), ("build", "b"), ("article", "a")]

/-- A fully valid research response (1500-char body, conforming
`next_actions` and `next_reading`). -/
def goodResp : List (String × Jval) :=
  [("content", Jval.str (String.mk (List.replicate 1500 'x'))),
   ("next_actions", Jval.arr
      [Jval.obj [("name", Jval.str "a name of more than twenty characters")]]),
   ("next_reading", Jval.arr
      [Jval.str "a reading suggestion of sufficient length"])]

/-- An environment whose model calls always return `goodResp` and whose
INSERTs commit. -/
def envGood : Nat → (String → List (String × Jval)) × Bool :=
  fun _ => (fun _ => goodResp, true)

/-- A state that satisfies the bare at-most-one invariant but in which a
`reprocess` idea already owns a live artifact. -/
def wBad : World :=
  ⟨[⟨0, "plain", "", "reprocess", 0⟩],
   [⟨100, 0, "research", Jval.str "t", Jval.str "c", .jsonV (.arr []),
     .jsonV (.arr []), .jsonV (.arr []), "awaiting review", 100⟩], [], 101⟩

/-- Counterexample to C8 as stated: the bare at-most-one invariant is not
inductive for the pipeline's operations.  `wBad` satisfies it, yet one
batch round (which succeeds and inserts a fresh artifact for the reprocess
idea that already owns one) leaves the idea with two live artifacts. -/
theorem at_most_one_not_inductive_cex :
    atMostOneLiveB wBad = true
      ∧ liveArtifacts (run_processor_batch promptsAll envGood wBad 1 1).world 0 = 2 := by
  exact ⟨by decide, by decide⟩

/-- C8 (amended): at most one live artifact per idea holds in every state
reachable by the pipeline's operations (batch runs, approve, reject) from a
state satisfying the strengthened invariant `Wf`, which additionally
requires that no queued/reprocess idea owns an artifact, that idea ids are
unique and that stored ids precede the fresh-id counter: every operation
preserves `Wf`, and `Wf` implies the at-most-one property.  (The bare
at-most-one property alone is not inductive, as the counterexample
shows.) -/
theorem at_most_one_live_preserved :
    (∀ (p : List (String × String))
      (env : Nat → (String → List (String × Jval)) × Bool) (w : World)
      (mr bs : Nat), Wf w → Wf (run_processor_batch p env w mr bs).world)
    ∧ (∀ (hasCreds netOk dbOk : Bool) (w : World) (cid : Nat),
        Wf w → Wf (approve_and_post_to_notion hasCreds netOk dbOk w cid).1)
    ∧ (∀ (insertOk delOk : Bool) (w : World) (cid : Nat) (ct cu : String),
        Wf w → Wf (reject_and_requeue insertOk delOk w cid ct cu).1)
    ∧ (∀ w, Wf w → atMostOneLive w) :=
  ⟨fun p env w mr bs hw => runAux_preserves_Wf p env mr 0 w bs 0 0 [] hw,
   fun hasCreds netOk dbOk w cid hw =>
     approve_preserves_Wf hasCreds netOk dbOk w cid hw,
   fun insertOk delOk w cid ct cu hw =>
     reject_preserves_Wf insertOk delOk w cid ct cu hw,
   fun _ hw => hw.atMostOne⟩

/-- Witness for the amended C8 at a concrete input: starting from the empty
stores (which satisfy `Wf`), a two-round run leaves at most one live
artifact per idea. -/
theorem at_most_one_live_preserved_witness :
    atMostOneLive (run_processor_batch [] envEmpty ⟨[], [], [], 0⟩ 2 3).world := by
  have hwf : Wf ⟨[], [], [], 0⟩ := by
    constructor
    · intro i hi
      exact absurd hi (List.not_mem_nil i)
    · intro c hc
      exact absurd hc (List.not_mem_nil c)
    · exact List.nodup_nil
    · intro n
      exact Nat.zero_le 1
    · intro i hi
      exact absurd hi (List.not_mem_nil i)
  exact at_most_one_live_preserved.2.2.2 _
    (at_most_one_live_preserved.1 [] envEmpty ⟨[], [], [], 0⟩ 2 3 hwf)

end Scintilla
